import Mathlib

/-!
Verification of the property-verification backend (FastAPI + MongoDB).

Shallow embedding of `src/main.py` and `src/schemas.py`.  The Mongo
document store is modelled as three lists of typed documents (one per
collection used by the app: `appuser`, `verificationtask`, `taskresult`).
Handlers are modelled as state-passing functions
`Store → Store × Except ApiError response`: an exception raised inside a
handler does not roll back writes already performed against the store,
exactly as with MongoDB (no transactions are used in the source).

Nondeterministic inputs of the source (freshly generated ObjectIds,
`datetime.now(timezone.utc)`) are passed as explicit parameters.
Timestamps are modelled as `Nat` (only their order matters for the sort
in `assign_task`).  `price` is a Python float carried verbatim (never
computed with); it is modelled as `Rat`, which represents the literals
appearing in the source exactly.
-/

/-- Characters accepted by `bson.ObjectId` when parsing a 24-character
hex string. -/
def isHexChar (c : Char) : Bool :=
  c.isDigit || (Char.ofNat 97 ≤ c && c ≤ Char.ofNat 102) || (Char.ofNat 65 ≤ c && c ≤ Char.ofNat 70)

/-- A string parses as a `bson.ObjectId` iff it is 24 hex characters
(`bson.ObjectId.__init__` via `_parse_str`). -/
def isValidOid (s : String) : Bool :=
  s.length == 24 && s.data.all isHexChar

/-- ASCII lowercasing, character by character (the id strings involved
are ASCII hex). -/
def lowerString (s : String) : String :=
  ⟨s.data.map Char.toLower⟩

/-- Models `ObjectId(task_id)` on a string: `none` models the raised
`InvalidId` exception; on success the id is normalised (an `ObjectId`
stringifies to lowercase hex, and comparison is on the underlying bytes). -/
def parseOid (s : String) : Option String :=
  if isValidOid s then some (lowerString s) else none

/-- Models Python `s.split("@")[0]` on the character list: everything
before the first `'@'`, the whole list when there is none. -/
def beforeAt : List Char → List Char
  | [] => []
  | c :: cs => if c = '@' then [] else c :: beforeAt cs

/-- Models Python `s.split("@")[0]`. -/
def pySplitHead (s : String) : String :=
  ⟨beforeAt s.data⟩

/-- Sort key used by `find_one({"status": "pending"}, sort=[("last_assigned_at", 1)])`:
in BSON ascending order a missing/null `last_assigned_at` sorts before
every date, so `none` maps below every `some t`. -/
def laKey : Option Nat → Nat
  | none => 0
  | some t => t + 1

/-- Models Mongo `update_one`: applies `f` to the first element
satisfying `p` and leaves the rest unchanged. -/
def updateFirst (p : α → Bool) (f : α → α) : List α → List α
  | [] => []
  | x :: xs => if p x then f x :: xs else x :: updateFirst p f xs

/-- A stored `appuser` document (shape of `schemas.AppUser` plus the
Mongo `_id`, here `oid`).  `wallet_balance_cents` is optional at the
store level: the handlers read it with `.get("wallet_balance_cents", 0)`. -/
structure UserDoc where
  oid : String
  name : String
  email : String
  wallet_balance_cents : Option Int
deriving Repr, DecidableEq

/-- A stored `verificationtask` document (shape of
`schemas.VerificationTask` plus the Mongo `_id`).  `reward_cents` and
`instructions` are optional at the store level: the handlers read them
with `.get(..., default)`. -/
structure TaskDoc where
  oid : String
  title : String
  price : Rat
  location : String
  image_url : String
  property_type : String
  reward_cents : Option Int
  instructions : Option String
  status : String
  assigned_to : Option String
  last_assigned_at : Option Nat
deriving Repr, DecidableEq

/-- A stored `taskresult` document (shape of `schemas.TaskResult` plus
the Mongo `_id`). -/
structure ResultDoc where
  oid : String
  task_id : String
  user_id : String
  choice : String
  reward_cents : Int
  submitted_at : Option Nat
deriving Repr, DecidableEq

/-- The document store: the three collections the handlers touch. -/
structure Store where
  appuser : List UserDoc
  verificationtask : List TaskDoc
  taskresult : List ResultDoc
deriving Repr, DecidableEq

/-- How a handler terminates abnormally.  `http s d` models
`HTTPException(status_code=s, detail=d)`, which FastAPI surfaces with
that status.  `schemaValidation f` models a pydantic `ValidationError`
raised while constructing a schema model inside the handler body (field
`f` rejected); FastAPI does not translate such an error into a 422 —
only request-parsing errors become 422 — so it propagates to the
Starlette server-error middleware and surfaces as a 500 response. -/
inductive ApiError where
  | http (status : Nat) (detail : String)
  | schemaValidation (field : String)
deriving Repr, DecidableEq

/-- HTTP status code the client observes for each abnormal termination. -/
def ApiError.toStatus : ApiError → Nat
  | .http s _ => s
  | .schemaValidation _ => 500

/-- The status code of a handler outcome (`none` when it succeeded). -/
def resultStatus : Except ApiError α → Option Nat
  | .ok _ => none
  | .error e => some e.toStatus

/-- Decidable equality of handler outcomes, so the theorems below can be
instantiated on concrete inputs by computation. -/
def Except.decEq [DecidableEq ε] [DecidableEq α] : (a b : Except ε α) → Decidable (a = b)
  | .ok a, .ok b => if h : a = b then .isTrue (by rw [h]) else .isFalse (by simp [h])
  | .ok _, .error _ => .isFalse (by simp)
  | .error _, .ok _ => .isFalse (by simp)
  | .error a, .error b => if h : a = b then .isTrue (by rw [h]) else .isFalse (by simp [h])

instance [DecidableEq ε] [DecidableEq α] : DecidableEq (Except ε α) := Except.decEq

/-- Default instructions text of `schemas.VerificationTask.instructions`,
also the `.get` default in `assign_task`. -/
def defaultInstructions : String :=
  "Please review this property information and confirm whether the listing is still active."

/-- Response model of `POST /api/tasks/assign` (`main.AssignResponse`). -/
structure AssignResponse where
  task_id : String
  title : String
  price : Rat
  location : String
  image_url : String
  property_type : String
  reward_cents : Int
  instructions : String
deriving Repr, DecidableEq

/-- The demo user inserted by `seed_data`
(`AppUser(name="Demo User", email="demo@example.com", wallet_balance_cents=0)`). -/
def demoUser (uid : String) : UserDoc :=
  { oid := uid
    name := "Demo User"
    email := "demo@example.com"
    wallet_balance_cents := some 0 }

/-- One of the three sample tasks of `seed_data`: every sample sets
title, price, location, image_url, property_type and `reward_cents = 30`;
the remaining `VerificationTask` fields take their schema defaults. -/
def sampleTask (tid title : String) (price : Rat) (location imageUrl ptype : String) : TaskDoc :=
  { oid := tid
    title := title
    price := price
    location := location
    image_url := imageUrl
    property_type := ptype
    reward_cents := some 30
    instructions := some defaultInstructions
    status := "pending"
    assigned_to := none
    last_assigned_at := none }

/-- First sample property of `seed_data`. -/
def sampleStudio (tid : String) : TaskDoc :=
  sampleTask tid "Modern Studio Apartment" 1200 "San Francisco, CA"
    "https://images.unsplash.com/photo-1505693416388-ac5ce068fe85?q=80&w=1200&auto=format&fit=crop"
    "Apartment"

/-- Second sample property of `seed_data`. -/
def sampleHome (tid : String) : TaskDoc :=
  sampleTask tid "Cozy Suburban Home" 350000 "Austin, TX"
    "https://images.unsplash.com/photo-1560185008-b033106af2fa?q=80&w=1200&auto=format&fit=crop"
    "House"

/-- Third sample property of `seed_data`. -/
def sampleLoft (tid : String) : TaskDoc :=
  sampleTask tid "Downtown Loft" 2200 "Chicago, IL"
    "https://images.unsplash.com/photo-1600585154526-990dced4db0d?q=80&w=1200&auto=format&fit=crop"
    "Loft"

/-- Models `POST /api/seed` (`main.seed_data`).  `uid t1 t2 t3` are the
ObjectIds the driver generates for the inserted documents.  Inserts the
demo user when `appuser` is empty and the three sample properties when
`verificationtask` is empty. -/
def seed_data (s : Store) (uid t1 t2 t3 : String) : Store :=
  let s1 :=
    match s.appuser with
    | [] => { s with appuser := s.appuser ++ [demoUser uid] }
    | _ :: _ => s
  match s1.verificationtask with
  | [] =>
      { s1 with verificationtask := s1.verificationtask ++
          [sampleStudio t1, sampleHome t2, sampleLoft t3] }
  | _ :: _ => s1

/-- The minimum of a task list under the `last_assigned_at` ascending
sort, the earlier document winning ties: models which document
`find_one(..., sort=[("last_assigned_at", 1)])` returns on the filtered
collection. -/
def argminLA : List TaskDoc → Option TaskDoc
  | [] => none
  | t :: ts =>
      match argminLA ts with
      | none => some t
      | some m => if laKey t.last_assigned_at ≤ laKey m.last_assigned_at then some t else some m

/-- The `$set` of `assign_task`: stamp the selected task with the
assignee and the current time. -/
def setAssigned (uid : String) (now : Nat) (t : TaskDoc) : TaskDoc :=
  { t with assigned_to := some uid, last_assigned_at := some now }

/-- The `$set` of `submit_task`: mark the task completed. -/
def setCompleted (t : TaskDoc) : TaskDoc :=
  { t with status := "completed" }

/-- The `$inc` of `submit_task`: credit the wallet; Mongo `$inc` treats
a missing field as 0 and creates it. -/
def incWallet (reward : Int) (u : UserDoc) : UserDoc :=
  { u with wallet_balance_cents := some (u.wallet_balance_cents.getD 0 + reward) }

/-- The `AppUser` document `assign_task` auto-creates on first login:
`AppUser(name=payload.user_email.split("@")[0], email=payload.user_email)`
with the schema default `wallet_balance_cents = 0`. -/
def autoUser (fid email : String) : UserDoc :=
  { oid := fid
    name := pySplitHead email
    email := email
    wallet_balance_cents := some 0 }

/-- The "ensure user exists" block of `main.assign_task`: return the
first user document matching the email, or insert an auto-created one
and re-read it by the id `fid` the driver generated.  `none` models the
`TypeError` Python would raise if the re-read found nothing (dead code:
the inserted document always matches). -/
def ensureUser (s : Store) (user_email fid : String) : Option (Store × UserDoc) :=
  match s.appuser.filter (fun u => u.email == user_email) with
  | u :: _ => some (s, u)
  | [] =>
      let s1 : Store := { s with appuser := s.appuser ++ [autoUser fid user_email] }
      match s1.appuser.filter (fun u => u.oid == fid) with
      | u :: _ => some (s1, u)
      | [] => none

/-- Id of the user an assignment request resolves to: the first stored
user with the email, or the freshly generated id `fid` when the user is
auto-created. -/
def resolvedUserOid (s : Store) (e fid : String) : String :=
  match s.appuser.filter (fun u => u.email == e) with
  | u :: _ => u.oid
  | [] => fid

/-- Models `POST /api/tasks/assign` (`main.assign_task`).  `fid` is the
ObjectId generated if a user document is inserted; `now` is the current
UTC time.  Looks up (or auto-creates) the user, picks the pending task
least recently assigned (missing `last_assigned_at` first), stamps it
with `assigned_to`/`last_assigned_at`, re-reads it and returns its
fields with the `.get` defaults applied. -/
def assign_task (s : Store) (user_email fid : String) (now : Nat) :
    Store × Except ApiError AssignResponse :=
  match ensureUser s user_email fid with
  | none => (s, Except.error (ApiError.http 500 "Internal Server Error"))
  | some (s1, user) =>
      match argminLA (s1.verificationtask.filter (fun t => t.status == "pending")) with
      | none => (s1, Except.error (ApiError.http 404 "No tasks available"))
      | some task =>
          let s2 : Store :=
            { s1 with verificationtask :=
                (updateFirst (fun t => t.oid == task.oid) (setAssigned user.oid now)
                  s1.verificationtask) }
          match s2.verificationtask.filter (fun t => t.oid == task.oid) with
          | [] => (s2, Except.error (ApiError.http 500 "Internal Server Error"))
          | t2 :: _ =>
              (s2, Except.ok
                { task_id := t2.oid
                  title := t2.title
                  price := t2.price
                  location := t2.location
                  image_url := t2.image_url
                  property_type := t2.property_type
                  reward_cents := t2.reward_cents.getD 30
                  instructions := t2.instructions.getD defaultInstructions })

/-- Models `POST /api/tasks/submit` (`main.submit_task`).  `rid` is the
ObjectId generated for the inserted `taskresult` document; `now` is the
current UTC time.  Resolves the user by email (404 if absent), parses
the task id (400 if malformed), resolves the task (404 if absent), then
constructs a `TaskResult` — whose schema rejects a `choice` outside
active/inactive/unknown before anything is written — inserts it, marks
the task completed and `$inc`s the user's wallet (a missing
`wallet_balance_cents` field is treated as 0 by `$inc`).  Returns the
reward credited. -/
def submit_task (s : Store) (user_email task_id choice rid : String) (now : Nat) :
    Store × Except ApiError Int :=
  match s.appuser.filter (fun u => u.email == user_email) with
  | [] => (s, Except.error (ApiError.http 404 "User not found"))
  | user :: _ =>
      match parseOid task_id with
      | none => (s, Except.error (ApiError.http 400 "Invalid task id"))
      | some oid =>
          match s.verificationtask.filter (fun t => t.oid == oid) with
          | [] => (s, Except.error (ApiError.http 404 "Task not found"))
          | task :: _ =>
              let reward := task.reward_cents.getD 30
              if choice == "active" || choice == "inactive" || choice == "unknown" then
                let r : ResultDoc :=
                  { oid := rid
                    task_id := task.oid
                    user_id := user.oid
                    choice := choice
                    reward_cents := reward
                    submitted_at := some now }
                let s1 : Store := { s with taskresult := s.taskresult ++ [r] }
                let s2 : Store :=
                  { s1 with verificationtask :=
                      (updateFirst (fun t => t.oid == task.oid) setCompleted
                        s1.verificationtask) }
                let s3 : Store :=
                  { s2 with appuser :=
                      (updateFirst (fun u => u.oid == user.oid) (incWallet reward)
                        s2.appuser) }
                (s3, Except.ok reward)
              else
                (s, Except.error (ApiError.schemaValidation "choice"))

/-- Models `GET /api/users/{email}/wallet` (`main.get_wallet`).  The
handler only reads, so the store is returned unchanged on every path. -/
def get_wallet (s : Store) (email : String) : Store × Except ApiError Int :=
  match s.appuser.filter (fun u => u.email == email) with
  | [] => (s, Except.error (ApiError.http 404 "User not found"))
  | user :: _ => (s, Except.ok (user.wallet_balance_cents.getD 0))

/-- Effective wallet balance of the first `appuser` document with the
given id, a missing field reading as 0 (the `.get` default). -/
def userWallet (s : Store) (uid : String) : Int :=
  match s.appuser.filter (fun u => u.oid == uid) with
  | [] => 0
  | u :: _ => u.wallet_balance_cents.getD 0

/-- Status of the first `verificationtask` document with the given id. -/
def taskStatus (s : Store) (tid : String) : Option String :=
  match s.verificationtask.filter (fun t => t.oid == tid) with
  | [] => none
  | t :: _ => some t.status

/-! ## Concrete fixtures

Small concrete documents and stores used to instantiate the theorems
below on explicit inputs. -/

/-- A stored user with a known balance. -/
def exampleUser : UserDoc :=
  ⟨"aaaaaaaaaaaaaaaaaaaaaaaa", "Demo User", "demo@example.com", some 10⟩

/-- A pending task carrying an explicit reward of 40 cents. -/
def examplePendingTask : TaskDoc :=
  ⟨"bbbbbbbbbbbbbbbbbbbbbbbb", "Modern Studio Apartment", 1200, "San Francisco, CA",
    "img", "Apartment", some 40, none, "pending", none, some 7⟩

/-- A pending task with no stored `reward_cents` and no stored
`last_assigned_at`. -/
def exampleBareTask : TaskDoc :=
  ⟨"cccccccccccccccccccccccc", "Cozy Suburban Home", 350000, "Austin, TX",
    "img2", "House", none, some "check it", "pending", none, none⟩

/-- A task whose status is `disabled` (a value `schemas.VerificationTask`
explicitly allows). -/
def exampleDisabledTask : TaskDoc :=
  ⟨"dddddddddddddddddddddddd", "Downtown Loft", 2200, "Chicago, IL",
    "img3", "Loft", some 25, none, "disabled", none, none⟩

/-- One known user, one pending task with reward 40. -/
def exampleStore : Store :=
  ⟨[exampleUser], [examplePendingTask], []⟩

/-- One known user, a pending task and a bare pending task. -/
def exampleStore2 : Store :=
  ⟨[exampleUser], [examplePendingTask, exampleBareTask], []⟩

/-- One known user and a single disabled task. -/
def exampleDisabledStore : Store :=
  ⟨[exampleUser], [exampleDisabledTask], []⟩

/-! ## Helper lemmas -/

theorem updateFirst_length (p : α → Bool) (f : α → α) :
    (l : List α) → (updateFirst p f l).length = l.length
  | [] => rfl
  | x :: xs => by
      by_cases hx : p x
      · simp [updateFirst, hx]
      · simp [updateFirst, hx, updateFirst_length p f xs]

theorem filter_updateFirst (p : α → Bool) (f : α → α) (hpf : ∀ x, p (f x) = p x) :
    (l : List α) → (updateFirst p f l).filter p =
      (match l.filter p with
       | [] => ([] : List α)
       | x :: xs => f x :: xs)
  | [] => rfl
  | x :: xs => by
      by_cases hx : p x
      · simp [updateFirst, hx, List.filter_cons_of_pos, hpf x]
      · rw [updateFirst, if_neg hx, List.filter_cons_of_neg hx, List.filter_cons_of_neg hx]
        exact filter_updateFirst p f hpf xs

theorem filter_ne_nil_of_mem {p : α → Bool} {l : List α} {a : α}
    (ha : a ∈ l) (hpa : p a = true) : l.filter p ≠ [] :=
  fun h => List.filter_eq_nil_iff.mp h a ha hpa

theorem filter_key_singleton_of_nodup (key : α → String) :
    {l : List α} → (l.map key).Nodup → {t : α} → t ∈ l →
    l.filter (fun x => key x == key t) = [t]
  | [], _, t, ht => absurd ht (List.not_mem_nil t)
  | a :: l, h, t, ht => by
      rw [List.map_cons, List.nodup_cons] at h
      rcases List.mem_cons.mp ht with rfl | htl
      · have hnil : l.filter (fun x => key x == key t) = [] := by
          apply List.filter_eq_nil_iff.mpr
          intro b hb hbt
          exact h.1 (List.mem_map.mpr ⟨b, hb, eq_of_beq hbt⟩)
        simp [List.filter_cons, hnil]
      · have hne : ¬ (key a == key t) = true := by
          intro hbeq
          exact h.1 (List.mem_map.mpr ⟨t, htl, (eq_of_beq hbeq).symm⟩)
        rw [List.filter_cons, if_neg hne]
        exact filter_key_singleton_of_nodup key h.2 htl

theorem argminLA_eq_none : {l : List TaskDoc} → argminLA l = none → l = []
  | [], _ => rfl
  | t :: ts, h => by
      rw [argminLA] at h
      cases hr : argminLA ts <;> simp [hr] at h
      split at h <;> exact absurd h (by simp)

theorem argminLA_mem : {l : List TaskDoc} → {t : TaskDoc} → argminLA l = some t → t ∈ l
  | [], t, h => by simp [argminLA] at h
  | x :: xs, t, h => by
      rw [argminLA] at h
      cases hr : argminLA xs with
      | none =>
          rw [hr] at h
          cases h
          exact List.mem_cons_self x xs
      | some m =>
          simp only [hr] at h
          by_cases hle : laKey x.last_assigned_at ≤ laKey m.last_assigned_at
          · rw [if_pos hle] at h
            cases h
            exact List.mem_cons_self x xs
          · rw [if_neg hle] at h
            cases h
            exact List.mem_cons_of_mem x (argminLA_mem hr)

theorem argminLA_le : {l : List TaskDoc} → {t : TaskDoc} → argminLA l = some t →
    ∀ x ∈ l, laKey t.last_assigned_at ≤ laKey x.last_assigned_at
  | [], t, h => by simp [argminLA] at h
  | x :: xs, t, h => by
      rw [argminLA] at h
      cases hr : argminLA xs with
      | none =>
          rw [hr] at h
          cases h
          have hxs := argminLA_eq_none hr
          subst hxs
          intro y hy
          rcases List.mem_cons.mp hy with rfl | hc
          · exact Nat.le_refl _
          · exact absurd hc (List.not_mem_nil y)
      | some m =>
          simp only [hr] at h
          by_cases hle : laKey x.last_assigned_at ≤ laKey m.last_assigned_at
          · rw [if_pos hle] at h
            cases h
            intro y hy
            rcases List.mem_cons.mp hy with rfl | hc
            · exact Nat.le_refl _
            · exact Nat.le_trans hle (argminLA_le hr y hc)
          · rw [if_neg hle] at h
            cases h
            intro y hy
            rcases List.mem_cons.mp hy with rfl | hc
            · omega
            · exact argminLA_le hr y hc

theorem map_updateFirst (g : α → β) (p : α → Bool) (f : α → α) (hgf : ∀ x, g (f x) = g x) :
    (l : List α) → (updateFirst p f l).map g = l.map g
  | [] => rfl
  | x :: xs => by
      by_cases hx : p x
      · simp [updateFirst, hx, hgf x]
      · simp [updateFirst, hx, map_updateFirst g p f hgf xs]

theorem beforeAt_spec : (l : List Char) →
    '@' ∉ beforeAt l ∧ (beforeAt l = l ∨ ∃ rest, l = beforeAt l ++ '@' :: rest)
  | [] => ⟨List.not_mem_nil '@', Or.inl rfl⟩
  | c :: cs => by
      by_cases hc : c = '@'
      · subst hc
        refine ⟨by simp [beforeAt], Or.inr ⟨cs, by simp [beforeAt]⟩⟩
      · have ih := beforeAt_spec cs
        constructor
        · rw [beforeAt, if_neg hc]
          intro hmem
          rcases List.mem_cons.mp hmem with h1 | h2
          · exact hc h1.symm
          · exact ih.1 h2
        · rcases ih.2 with h1 | ⟨rest, h2⟩
          · exact Or.inl (by rw [beforeAt, if_neg hc, h1])
          · refine Or.inr ⟨rest, ?_⟩
            rw [beforeAt, if_neg hc]
            simpa using h2

theorem ensureUser_spec (s : Store) (e fid : String) :
    ∃ s1 u, ensureUser s e fid = some (s1, u) ∧
      s1.verificationtask = s.verificationtask ∧
      s1.taskresult = s.taskresult ∧
      u.oid = resolvedUserOid s e fid ∧
      ((∃ us, s.appuser.filter (fun x => x.email == e) = u :: us ∧ s1 = s) ∨
       (s.appuser.filter (fun x => x.email == e) = [] ∧
        s1 = { s with appuser := s.appuser ++ [autoUser fid e] })) := by
  cases hf : s.appuser.filter (fun x => x.email == e) with
  | cons u us =>
      refine ⟨s, u, ?_, rfl, rfl, ?_, Or.inl ⟨us, rfl, rfl⟩⟩
      · simp [ensureUser, hf]
      · simp [resolvedUserOid, hf]
  | nil =>
      cases hg : (s.appuser ++ [autoUser fid e]).filter (fun x => x.oid == fid) with
      | nil =>
          exfalso
          refine filter_ne_nil_of_mem (p := fun x => x.oid == fid)
            (List.mem_append_right s.appuser (List.mem_singleton.mpr rfl)) ?_ hg
          exact beq_self_eq_true fid
      | cons u us =>
          have hmem : u ∈ (s.appuser ++ [autoUser fid e]).filter (fun x => x.oid == fid) := by
            rw [hg]
            exact List.mem_cons_self u us
          have hpu : (u.oid == fid) = true := (List.mem_filter.mp hmem).2
          have hoid : u.oid = fid := eq_of_beq hpu
          refine ⟨{ s with appuser := s.appuser ++ [autoUser fid e] }, u, ?_, rfl, rfl, ?_,
            Or.inr ⟨rfl, rfl⟩⟩
          · simp [ensureUser, hf, hg]
          · simp [resolvedUserOid, hf, hoid]

theorem assign_task_nopending (s : Store) (e fid : String) (now : Nat)
    (hp : s.verificationtask.filter (fun t => t.status == "pending") = []) :
    (assign_task s e fid now).2 = Except.error (ApiError.http 404 "No tasks available") ∧
    (assign_task s e fid now).1.verificationtask = s.verificationtask ∧
    (assign_task s e fid now).1.taskresult = s.taskresult := by
  obtain ⟨s1, u, hEU, hTV, hTR, hOid, hcase⟩ := ensureUser_spec s e fid
  have hp1 : s1.verificationtask.filter (fun t => t.status == "pending") = [] := by
    rw [hTV, hp]
  refine ⟨?_, ?_, ?_⟩ <;> simp [assign_task, hEU, hTV, hp, argminLA, hTR]

theorem assign_task_ok (s : Store) (e fid : String) (now : Nat) (task : TaskDoc)
    (hnod : (s.verificationtask.map TaskDoc.oid).Nodup)
    (hm : argminLA (s.verificationtask.filter (fun t => t.status == "pending")) = some task) :
    (assign_task s e fid now).2 = Except.ok
      { task_id := task.oid
        title := task.title
        price := task.price
        location := task.location
        image_url := task.image_url
        property_type := task.property_type
        reward_cents := task.reward_cents.getD 30
        instructions := task.instructions.getD defaultInstructions } ∧
    (assign_task s e fid now).1.verificationtask =
      updateFirst (fun t => t.oid == task.oid) (setAssigned (resolvedUserOid s e fid) now)
        s.verificationtask ∧
    (assign_task s e fid now).1.taskresult = s.taskresult := by
  obtain ⟨s1, u, hEU, hTV, hTR, hOid, hcase⟩ := ensureUser_spec s e fid
  have htmem : task ∈ s.verificationtask := List.mem_of_mem_filter (argminLA_mem hm)
  have hsingle : s.verificationtask.filter (fun x => x.oid == task.oid) = [task] :=
    filter_key_singleton_of_nodup TaskDoc.oid hnod htmem
  have hfu : (updateFirst (fun t => t.oid == task.oid) (setAssigned u.oid now)
      s.verificationtask).filter (fun t => t.oid == task.oid) =
      [setAssigned u.oid now task] := by
    rw [filter_updateFirst (fun t => t.oid == task.oid) (setAssigned u.oid now)
      (fun x => rfl), hsingle]
  rw [← hOid]
  refine ⟨?_, ?_, ?_⟩ <;>
    simp [assign_task, hEU, hTV, hm, hfu, hTR, setAssigned]

theorem submit_task_ok (s : Store) (e tid choice rid : String) (now : Nat)
    (user : UserDoc) (us : List UserDoc) (oid : String) (task : TaskDoc) (ts : List TaskDoc)
    (h1 : s.appuser.filter (fun x => x.email == e) = user :: us)
    (h2 : parseOid tid = some oid)
    (h3 : s.verificationtask.filter (fun t => t.oid == oid) = task :: ts)
    (h4 : (choice == "active" || choice == "inactive" || choice == "unknown") = true) :
    submit_task s e tid choice rid now =
      ({ appuser := updateFirst (fun x => x.oid == user.oid)
            (incWallet (task.reward_cents.getD 30)) s.appuser,
         verificationtask := updateFirst (fun t => t.oid == task.oid) setCompleted
            s.verificationtask,
         taskresult := s.taskresult ++
            [⟨rid, task.oid, user.oid, choice, task.reward_cents.getD 30, some now⟩] },
       Except.ok (task.reward_cents.getD 30)) := by
  simp [submit_task, h1, h2, h3, h4]

theorem map_status_updateFirst_setAssigned (p : TaskDoc → Bool) (uid : String) (now : Nat)
    (l : List TaskDoc) :
    (updateFirst p (setAssigned uid now) l).map TaskDoc.status = l.map TaskDoc.status :=
  map_updateFirst TaskDoc.status p (setAssigned uid now) (fun _ => rfl) l

theorem assign_task_appuser_of_unknown (s : Store) (e fid : String) (now : Nat)
    (h : s.appuser.filter (fun u => u.email == e) = []) :
    (assign_task s e fid now).1.appuser = s.appuser ++ [autoUser fid e] := by
  obtain ⟨s1, u, hEU, hTV, hTR, hOid, hcase⟩ := ensureUser_spec s e fid
  rcases hcase with ⟨us, hf, _⟩ | ⟨hf, hs1⟩
  · rw [h] at hf
    exact absurd hf (by simp)
  · subst hs1
    simp only [assign_task, hEU]
    split
    · rfl
    · split <;> rfl

/-! ## Claims -/

/-- C6: the wallet read mutates nothing; it fails with 404 "User not
found" exactly when no stored user has the requested email; and when a
matching user exists it returns that user's stored
`wallet_balance_cents`, reading a missing field as 0. -/
theorem get_wallet_spec (s : Store) (e : String) :
    (get_wallet s e).1 = s ∧
    ((get_wallet s e).2 = Except.error (ApiError.http 404 "User not found") ↔
      ∀ u ∈ s.appuser, u.email ≠ e) ∧
    (∀ u us, s.appuser.filter (fun x => x.email == e) = u :: us →
      (get_wallet s e).2 = Except.ok (u.wallet_balance_cents.getD 0)) := by
  cases hf : s.appuser.filter (fun x => x.email == e) with
  | nil =>
      refine ⟨by simp [get_wallet, hf], ?_, ?_⟩
      · constructor
        · intro _ u hu he
          have := List.filter_eq_nil_iff.mp hf u hu
          rw [he] at this
          exact this (beq_self_eq_true e)
        · intro _
          simp [get_wallet, hf]
      · intro u us h
        exact absurd h (by simp)
  | cons u us =>
      have hmem : u ∈ s.appuser.filter (fun x => x.email == e) := by
        rw [hf]
        exact List.mem_cons_self u us
      have heq : u.email = e := eq_of_beq (List.mem_filter.mp hmem).2
      have hmem2 : u ∈ s.appuser := List.mem_of_mem_filter hmem
      refine ⟨by simp [get_wallet, hf], ?_, ?_⟩
      · constructor
        · intro hcontra
          rw [get_wallet] at hcontra
          rw [hf] at hcontra
          exact absurd hcontra (by simp)
        · intro hall
          exact absurd heq (hall u hmem2)
      · intro v vs h
        cases h
        simp [get_wallet, hf]

/-- Witness for the wallet-read specification at a concrete store. -/
theorem get_wallet_spec_witness :
    (get_wallet exampleStore "demo@example.com").1 = exampleStore ∧
    (get_wallet exampleStore "demo@example.com").2 = Except.ok 10 :=
  ⟨(get_wallet_spec exampleStore "demo@example.com").1,
   (get_wallet_spec exampleStore "demo@example.com").2.2 exampleUser [] (by decide)⟩

/-- C8: seeding a store whose collections are both empty inserts
exactly the demo user and the three sample properties (and nothing
else); a non-empty collection is never inserted into; and running seed
a second time changes nothing at all. -/
theorem seed_data_spec :
    (∀ s uid t1 t2 t3, s.appuser = [] → s.verificationtask = [] →
      seed_data s uid t1 t2 t3 =
        { appuser := [demoUser uid],
          verificationtask := [sampleStudio t1, sampleHome t2, sampleLoft t3],
          taskresult := s.taskresult }) ∧
    (∀ s uid t1 t2 t3, s.appuser ≠ [] → (seed_data s uid t1 t2 t3).appuser = s.appuser) ∧
    (∀ s uid t1 t2 t3, s.verificationtask ≠ [] →
      (seed_data s uid t1 t2 t3).verificationtask = s.verificationtask) ∧
    (∀ s uid t1 t2 t3 uid2 a2 b2 c2,
      seed_data (seed_data s uid t1 t2 t3) uid2 a2 b2 c2 = seed_data s uid t1 t2 t3) := by
  refine ⟨?_, ?_, ?_, ?_⟩
  · intro s uid t1 t2 t3 ha ht
    obtain ⟨a, v, r⟩ := s
    dsimp at ha ht
    subst ha
    subst ht
    rfl
  · intro s uid t1 t2 t3 ha
    obtain ⟨a, v, r⟩ := s
    cases a with
    | nil => exact absurd rfl ha
    | cons x xs => cases v <;> rfl
  · intro s uid t1 t2 t3 ht
    obtain ⟨a, v, r⟩ := s
    cases v with
    | nil => exact absurd rfl ht
    | cons x xs => cases a <;> rfl
  · intro s uid t1 t2 t3 uid2 a2 b2 c2
    obtain ⟨a, v, r⟩ := s
    cases a <;> cases v <;> rfl

/-- Witness for the seeding specification: seeding the empty store. -/
theorem seed_data_spec_witness :
    seed_data ⟨[], [], []⟩ "u0" "p1" "p2" "p3" =
      { appuser := [demoUser "u0"],
        verificationtask := [sampleStudio "p1", sampleHome "p2", sampleLoft "p3"],
        taskresult := [] } :=
  seed_data_spec.1 ⟨[], [], []⟩ "u0" "p1" "p2" "p3" rfl rfl

/-- C5: an assignment request whose email matches no stored user
appends exactly one new user document, carrying that email and a zero
wallet balance. -/
theorem assign_task_creates_user (s : Store) (e fid : String) (now : Nat)
    (h : s.appuser.filter (fun u => u.email == e) = []) :
    (assign_task s e fid now).1.appuser = s.appuser ++ [autoUser fid e] ∧
    (autoUser fid e).email = e ∧
    (autoUser fid e).wallet_balance_cents = some 0 :=
  ⟨assign_task_appuser_of_unknown s e fid now h, rfl, rfl⟩

/-- Witness for user auto-creation at a concrete store. -/
theorem assign_task_creates_user_witness :
    (assign_task exampleStore "new@y.com" "eeeeeeeeeeeeeeeeeeeeeeee" 5).1.appuser =
      exampleStore.appuser ++ [autoUser "eeeeeeeeeeeeeeeeeeeeeeee" "new@y.com"] ∧
    (autoUser "eeeeeeeeeeeeeeeeeeeeeeee" "new@y.com").email = "new@y.com" ∧
    (autoUser "eeeeeeeeeeeeeeeeeeeeeeee" "new@y.com").wallet_balance_cents = some 0 :=
  assign_task_creates_user exampleStore "new@y.com" "eeeeeeeeeeeeeeeeeeeeeeee" 5 (by decide)

/-- C9: when the email is unknown and no pending task exists,
assignment responds 404 "No tasks available" but the auto-created user
document is already in the store and stays there — user creation is not
rolled back by the error. -/
theorem assign_task_user_persists_on_404 (s : Store) (e fid : String) (now : Nat)
    (hu : s.appuser.filter (fun u => u.email == e) = [])
    (ht : s.verificationtask.filter (fun t => t.status == "pending") = []) :
    assign_task s e fid now =
      ({ s with appuser := s.appuser ++ [autoUser fid e] },
       Except.error (ApiError.http 404 "No tasks available")) := by
  obtain ⟨s1, u, hEU, hTV, hTR, hOid, hcase⟩ := ensureUser_spec s e fid
  rcases hcase with ⟨us, hf, _⟩ | ⟨hf, hs1⟩
  · rw [hu] at hf
    exact absurd hf (by simp)
  · subst hs1
    simp [assign_task, hEU, ht, argminLA]

/-- Witness for the persisting-user 404 path at a concrete store. -/
theorem assign_task_user_persists_on_404_witness :
    assign_task ⟨[], [], []⟩ "ghost@x.com" "ffffffffffffffffffffffff" 3 =
      ({ appuser := [autoUser "ffffffffffffffffffffffff" "ghost@x.com"],
         verificationtask := [], taskresult := [] },
       Except.error (ApiError.http 404 "No tasks available")) :=
  assign_task_user_persists_on_404 ⟨[], [], []⟩ "ghost@x.com" "ffffffffffffffffffffffff" 3 rfl rfl

/-- C10: the user document auto-created by assignment is named by the
part of the supplied email before its first `'@'` character: the stored
name contains no `'@'` and either equals the whole email (no `'@'`
present) or is the prefix cut at the first `'@'`. -/
theorem assign_task_auto_name (s : Store) (e fid : String) (now : Nat)
    (h : s.appuser.filter (fun u => u.email == e) = []) :
    ∃ u : UserDoc, (assign_task s e fid now).1.appuser = s.appuser ++ [u] ∧
      u.name = pySplitHead e ∧
      '@' ∉ u.name.data ∧
      (u.name.data = e.data ∨ ∃ rest, e.data = u.name.data ++ '@' :: rest) :=
  ⟨autoUser fid e, assign_task_appuser_of_unknown s e fid now h, rfl,
    (beforeAt_spec e.data).1, (beforeAt_spec e.data).2⟩

/-- Witness for the auto-created user's name at a concrete email. -/
theorem assign_task_auto_name_witness :
    ∃ u : UserDoc,
      (assign_task ⟨[], [], []⟩ "jane.doe@mail.org" "abcdefabcdefabcdefabcdef" 1).1.appuser =
        ([] : List UserDoc) ++ [u] ∧
      u.name = pySplitHead "jane.doe@mail.org" ∧
      '@' ∉ u.name.data ∧
      (u.name.data = "jane.doe@mail.org".data ∨
        ∃ rest, "jane.doe@mail.org".data = u.name.data ++ '@' :: rest) :=
  assign_task_auto_name ⟨[], [], []⟩ "jane.doe@mail.org" "abcdefabcdefabcdefabcdef" 1 rfl

/-- C4 (amended): a submission whose task id does not parse as an
ObjectId never mutates the store, and — provided the user email is
known — it returns exactly HTTP 400 "Invalid task id" with the store
unchanged.  (With an unknown email the user check runs first and
returns 404 instead.) -/
theorem submit_task_bad_oid_spec (s : Store) (e tid c rid : String) (now : Nat)
    (hbad : parseOid tid = none) :
    (submit_task s e tid c rid now).1 = s ∧
    (∀ user us, s.appuser.filter (fun x => x.email == e) = user :: us →
      submit_task s e tid c rid now = (s, Except.error (ApiError.http 400 "Invalid task id"))) := by
  constructor
  · cases hf : s.appuser.filter (fun x => x.email == e) with
    | nil => simp [submit_task, hf]
    | cons u us => simp [submit_task, hf, hbad]
  · intro user us hf
    simp [submit_task, hf, hbad]

/-- Witness for the malformed-task-id path at a concrete store. -/
theorem submit_task_bad_oid_spec_witness :
    (submit_task exampleStore "demo@example.com" "zzz" "active" "r1" 0).1 = exampleStore ∧
    submit_task exampleStore "demo@example.com" "zzz" "active" "r1" 0 =
      (exampleStore, Except.error (ApiError.http 400 "Invalid task id")) :=
  ⟨(submit_task_bad_oid_spec exampleStore "demo@example.com" "zzz" "active" "r1" 0 (by decide)).1,
   (submit_task_bad_oid_spec exampleStore "demo@example.com" "zzz" "active" "r1" 0 (by decide)).2
     exampleUser [] (by decide)⟩

/-- C4 counterexample: with an unknown user email and an unparsable
task id the handler responds 404 "User not found", not
400 "Invalid task id" — the user check precedes id parsing. -/
theorem submit_task_bad_oid_counterexample :
    parseOid "not-an-objectid" = none ∧
    submit_task ⟨[], [], []⟩ "ghost@example.com" "not-an-objectid" "active" "r1" 0 =
      (⟨[], [], []⟩, Except.error (ApiError.http 404 "User not found")) :=
  ⟨by decide, by decide⟩

/-- C2 (amended): a submission whose choice is outside
active/inactive/unknown never mutates the store and always ends in an
error; when the user and the task both resolve, that error is the
pydantic rejection raised while building the `TaskResult` model inside
the handler (surfaced by the framework as a 500, not a 422 — user and
task lookups have already run by then). -/
theorem submit_task_invalid_choice_spec (s : Store) (e tid c rid : String) (now : Nat)
    (hc1 : c ≠ "active") (hc2 : c ≠ "inactive") (hc3 : c ≠ "unknown") :
    (submit_task s e tid c rid now).1 = s ∧
    (∃ err, (submit_task s e tid c rid now).2 = Except.error err) ∧
    (∀ user us oid task ts,
      s.appuser.filter (fun x => x.email == e) = user :: us →
      parseOid tid = some oid →
      s.verificationtask.filter (fun t => t.oid == oid) = task :: ts →
      (submit_task s e tid c rid now).2 = Except.error (ApiError.schemaValidation "choice")) := by
  have hb : (c == "active" || c == "inactive" || c == "unknown") = false := by
    simp [hc1, hc2, hc3]
  have key : ∃ err, submit_task s e tid c rid now = (s, Except.error err) := by
    cases hf : s.appuser.filter (fun x => x.email == e) with
    | nil => exact ⟨ApiError.http 404 "User not found", by simp [submit_task, hf]⟩
    | cons u us =>
        cases hp : parseOid tid with
        | none => exact ⟨ApiError.http 400 "Invalid task id", by simp [submit_task, hf, hp]⟩
        | some oid =>
            cases hg : s.verificationtask.filter (fun t => t.oid == oid) with
            | nil => exact ⟨ApiError.http 404 "Task not found", by simp [submit_task, hf, hp, hg]⟩
            | cons task ts =>
                exact ⟨ApiError.schemaValidation "choice", by simp [submit_task, hf, hp, hg, hb]⟩
  obtain ⟨err, hkey⟩ := key
  refine ⟨by rw [hkey], ⟨err, by rw [hkey]⟩, ?_⟩
  intro user us oid task ts hf hp hg
  simp [submit_task, hf, hp, hg, hb]

/-- Witness for the invalid-choice path at a concrete store. -/
theorem submit_task_invalid_choice_spec_witness :
    (submit_task exampleStore "demo@example.com" "bbbbbbbbbbbbbbbbbbbbbbbb" "maybe" "r1" 0).1 =
      exampleStore ∧
    (submit_task exampleStore "demo@example.com" "bbbbbbbbbbbbbbbbbbbbbbbb" "maybe" "r1" 0).2 =
      Except.error (ApiError.schemaValidation "choice") :=
  ⟨(submit_task_invalid_choice_spec exampleStore "demo@example.com" "bbbbbbbbbbbbbbbbbbbbbbbb"
      "maybe" "r1" 0 (by decide) (by decide) (by decide)).1,
   (submit_task_invalid_choice_spec exampleStore "demo@example.com" "bbbbbbbbbbbbbbbbbbbbbbbb"
      "maybe" "r1" 0 (by decide) (by decide) (by decide)).2.2
     exampleUser [] "bbbbbbbbbbbbbbbbbbbbbbbb" examplePendingTask []
     (by decide) (by decide) (by decide)⟩

/-- C2 counterexample: with a known user and an existing task, the
invalid choice "maybe" is rejected by the `TaskResult` schema inside
the handler — the observed status is 500, never a 422 response — though
indeed no store mutation happens. -/
theorem submit_task_invalid_choice_counterexample :
    (submit_task exampleStore "demo@example.com" "bbbbbbbbbbbbbbbbbbbbbbbb" "maybe" "r1" 0).2 =
      Except.error (ApiError.schemaValidation "choice") ∧
    resultStatus
      (submit_task exampleStore "demo@example.com" "bbbbbbbbbbbbbbbbbbbbbbbb" "maybe" "r1" 0).2 =
      some 500 ∧
    (submit_task exampleStore "demo@example.com" "bbbbbbbbbbbbbbbbbbbbbbbb" "maybe" "r1" 0).1 =
      exampleStore :=
  ⟨by decide, by decide, by decide⟩

/-- C1: a valid submission — known user email, parsable id of an
existing task, allowed choice — succeeds with the task's reward
(`reward_cents`, 30 when unset), appends exactly one `taskresult`
document carrying that reward, sets the task's status to completed, and
increases the submitting user's wallet balance by exactly that reward. -/
theorem submit_task_valid_spec (s : Store) (e tid choice rid : String) (now : Nat)
    (user : UserDoc) (us : List UserDoc) (oid : String) (task : TaskDoc) (ts : List TaskDoc)
    (h1 : s.appuser.filter (fun x => x.email == e) = user :: us)
    (h2 : parseOid tid = some oid)
    (h3 : s.verificationtask.filter (fun t => t.oid == oid) = task :: ts)
    (h4 : choice = "active" ∨ choice = "inactive" ∨ choice = "unknown") :
    (submit_task s e tid choice rid now).2 = Except.ok (task.reward_cents.getD 30) ∧
    (submit_task s e tid choice rid now).1.taskresult =
      s.taskresult ++ [⟨rid, task.oid, user.oid, choice, task.reward_cents.getD 30, some now⟩] ∧
    taskStatus (submit_task s e tid choice rid now).1 oid = some "completed" ∧
    userWallet (submit_task s e tid choice rid now).1 user.oid =
      userWallet s user.oid + task.reward_cents.getD 30 := by
  have h4b : (choice == "active" || choice == "inactive" || choice == "unknown") = true := by
    rcases h4 with rfl | rfl | rfl <;> rfl
  have htoid : task.oid = oid := by
    have hmem : task ∈ s.verificationtask.filter (fun t => t.oid == oid) := by
      rw [h3]
      exact List.mem_cons_self task ts
    exact eq_of_beq (List.mem_filter.mp hmem).2
  subst htoid
  have humem : user ∈ s.appuser := by
    have hmem : user ∈ s.appuser.filter (fun x => x.email == e) := by
      rw [h1]
      exact List.mem_cons_self user us
    exact List.mem_of_mem_filter hmem
  have hkey := submit_task_ok s e tid choice rid now user us task.oid task ts h1 h2 h3 h4b
  rw [hkey]
  refine ⟨rfl, rfl, ?_, ?_⟩
  · have hfu : (updateFirst (fun t => t.oid == task.oid) setCompleted
        s.verificationtask).filter (fun t => t.oid == task.oid) =
        setCompleted task :: ts := by
      rw [filter_updateFirst (fun t => t.oid == task.oid) setCompleted (fun _ => rfl), h3]
    simp [taskStatus, hfu, setCompleted]
  · have hfu2 := filter_updateFirst (fun x => x.oid == user.oid)
      (incWallet (task.reward_cents.getD 30)) (fun _ => rfl) s.appuser
    cases hfa : s.appuser.filter (fun x => x.oid == user.oid) with
    | nil => exact absurd hfa (filter_ne_nil_of_mem humem (beq_self_eq_true user.oid))
    | cons u0 r0 =>
        simp only [hfa] at hfu2
        simp [userWallet, hfu2, hfa, incWallet]

/-- Witness for the valid-submission specification at a concrete store:
the task carries reward 40, the wallet is credited exactly 40. -/
theorem submit_task_valid_spec_witness :
    (submit_task exampleStore "demo@example.com" "bbbbbbbbbbbbbbbbbbbbbbbb" "active" "r1" 9).2 =
      Except.ok 40 ∧
    (submit_task exampleStore "demo@example.com" "bbbbbbbbbbbbbbbbbbbbbbbb" "active" "r1" 9).1.taskresult =
      [⟨"r1", examplePendingTask.oid, exampleUser.oid, "active", 40, some 9⟩] ∧
    taskStatus
      (submit_task exampleStore "demo@example.com" "bbbbbbbbbbbbbbbbbbbbbbbb" "active" "r1" 9).1
      "bbbbbbbbbbbbbbbbbbbbbbbb" = some "completed" ∧
    userWallet
      (submit_task exampleStore "demo@example.com" "bbbbbbbbbbbbbbbbbbbbbbbb" "active" "r1" 9).1
      exampleUser.oid = userWallet exampleStore exampleUser.oid + 40 :=
  submit_task_valid_spec exampleStore "demo@example.com" "bbbbbbbbbbbbbbbbbbbbbbbb" "active"
    "r1" 9 exampleUser [] "bbbbbbbbbbbbbbbbbbbbbbbb" examplePendingTask []
    (by decide) (by decide) (by decide) (Or.inl rfl)

/-- C3: with no pending task, assignment responds 404 "No tasks
available"; otherwise the selected task was pending immediately before
the call and minimises the `last_assigned_at` sort key (missing/null
earliest), the response returns its fields with `reward_cents`
defaulting to 30 (and instructions defaulting), and the store update
stamps exactly that document with the resolved user id and the current
time. -/
theorem assign_task_spec (s : Store) (e fid : String) (now : Nat)
    (hnod : (s.verificationtask.map TaskDoc.oid).Nodup) :
    (s.verificationtask.filter (fun t => t.status == "pending") = [] →
      (assign_task s e fid now).2 = Except.error (ApiError.http 404 "No tasks available")) ∧
    (∀ task, argminLA (s.verificationtask.filter (fun t => t.status == "pending")) = some task →
      task ∈ s.verificationtask ∧ task.status = "pending" ∧
      (∀ t2 ∈ s.verificationtask, t2.status = "pending" →
        laKey task.last_assigned_at ≤ laKey t2.last_assigned_at) ∧
      (assign_task s e fid now).2 = Except.ok
        { task_id := task.oid
          title := task.title
          price := task.price
          location := task.location
          image_url := task.image_url
          property_type := task.property_type
          reward_cents := task.reward_cents.getD 30
          instructions := task.instructions.getD defaultInstructions } ∧
      (assign_task s e fid now).1.verificationtask =
        updateFirst (fun t => t.oid == task.oid)
          (setAssigned (resolvedUserOid s e fid) now) s.verificationtask) := by
  constructor
  · intro hp
    exact (assign_task_nopending s e fid now hp).1
  · intro task hm
    have hmem := argminLA_mem hm
    have hstat : task.status = "pending" := eq_of_beq (List.mem_filter.mp hmem).2
    refine ⟨List.mem_of_mem_filter hmem, hstat, ?_,
      (assign_task_ok s e fid now task hnod hm).1,
      (assign_task_ok s e fid now task hnod hm).2.1⟩
    intro t2 ht2 hs2
    refine argminLA_le hm t2 (List.mem_filter.mpr ⟨ht2, ?_⟩)
    rw [hs2]
    exact beq_self_eq_true "pending"

/-- Witness for the assignment specification: of the two pending tasks
the one with no `last_assigned_at` is selected, with the reward and
instructions defaults applied. -/
theorem assign_task_spec_witness :
    exampleBareTask ∈ exampleStore2.verificationtask ∧
    exampleBareTask.status = "pending" ∧
    (∀ t2 ∈ exampleStore2.verificationtask, t2.status = "pending" →
      laKey exampleBareTask.last_assigned_at ≤ laKey t2.last_assigned_at) ∧
    (assign_task exampleStore2 "demo@example.com" "eeeeeeeeeeeeeeeeeeeeeeee" 50).2 = Except.ok
      { task_id := exampleBareTask.oid
        title := exampleBareTask.title
        price := exampleBareTask.price
        location := exampleBareTask.location
        image_url := exampleBareTask.image_url
        property_type := exampleBareTask.property_type
        reward_cents := 30
        instructions := "check it" } ∧
    (assign_task exampleStore2 "demo@example.com" "eeeeeeeeeeeeeeeeeeeeeeee" 50).1.verificationtask =
      updateFirst (fun t => t.oid == exampleBareTask.oid)
        (setAssigned (resolvedUserOid exampleStore2 "demo@example.com" "eeeeeeeeeeeeeeeeeeeeeeee") 50)
        exampleStore2.verificationtask :=
  (assign_task_spec exampleStore2 "demo@example.com" "eeeeeeeeeeeeeeeeeeeeeeee" 50
    (by decide)).2 exampleBareTask (by decide)

/-- C7 (amended): assignment never changes any task's status and only
ever selects a task that was pending (so completed tasks are never
reassigned), mutating only `assigned_to`/`last_assigned_at` of the
selected document; seeding only appends pending tasks; the wallet read
changes nothing; and submission is the only operation that modifies a
status — it sets the matched task's status to completed
unconditionally, whatever the previous status (so, besides
pending → completed, a disabled task submitted directly also becomes
completed). -/
theorem task_status_transitions_spec :
    (∀ s e fid now,
      ((assign_task s e fid now).1.verificationtask.map TaskDoc.status) =
        s.verificationtask.map TaskDoc.status) ∧
    (∀ s e fid now resp, (s.verificationtask.map TaskDoc.oid).Nodup →
      (assign_task s e fid now).2 = Except.ok resp →
      ∃ task ∈ s.verificationtask, task.status = "pending" ∧ task.oid = resp.task_id ∧
        (assign_task s e fid now).1.verificationtask =
          updateFirst (fun t => t.oid == task.oid)
            (setAssigned (resolvedUserOid s e fid) now) s.verificationtask) ∧
    (∀ s uid t1 t2 t3, ∃ suffix, (seed_data s uid t1 t2 t3).verificationtask =
        s.verificationtask ++ suffix ∧ ∀ t ∈ suffix, t.status = "pending") ∧
    (∀ s e, (get_wallet s e).1 = s) ∧
    (∀ s e tid c rid now,
      (submit_task s e tid c rid now).1.verificationtask = s.verificationtask ∨
      ∃ task ts, s.verificationtask.filter (fun t => t.oid == task.oid) = task :: ts ∧
        (submit_task s e tid c rid now).1.verificationtask =
          updateFirst (fun t => t.oid == task.oid) setCompleted s.verificationtask) := by
  refine ⟨?_, ?_, ?_, ?_, ?_⟩
  · intro s e fid now
    obtain ⟨s1, u, hEU, hTV, hTR, hOid, hcase⟩ := ensureUser_spec s e fid
    simp only [assign_task, hEU]
    split
    · rw [hTV]
    · split <;> simp [map_status_updateFirst_setAssigned, hTV]
  · intro s e fid now resp hnod hok
    cases hm : argminLA (s.verificationtask.filter (fun t => t.status == "pending")) with
    | none =>
        have hp := argminLA_eq_none hm
        rw [(assign_task_nopending s e fid now hp).1] at hok
        exact absurd hok (by simp)
    | some task =>
        have h1 := assign_task_ok s e fid now task hnod hm
        have hmem := argminLA_mem hm
        refine ⟨task, List.mem_of_mem_filter hmem,
          eq_of_beq (List.mem_filter.mp hmem).2, ?_, h1.2.1⟩
        rw [h1.1] at hok
        cases hok
        rfl
  · intro s uid t1 t2 t3
    obtain ⟨a, v, r⟩ := s
    cases a <;> cases v <;>
      first
        | exact ⟨[sampleStudio t1, sampleHome t2, sampleLoft t3], rfl, by
            intro t ht
            simp only [List.mem_cons, List.not_mem_nil, or_false] at ht
            rcases ht with rfl | rfl | rfl <;> rfl⟩
        | exact ⟨[], by simp [seed_data], fun t ht => absurd ht (List.not_mem_nil t)⟩
  · intro s e
    cases hf : s.appuser.filter (fun u => u.email == e) with
    | nil => simp [get_wallet, hf]
    | cons u us => simp [get_wallet, hf]
  · intro s e tid c rid now
    cases hf : s.appuser.filter (fun x => x.email == e) with
    | nil => exact Or.inl (by simp [submit_task, hf])
    | cons user us =>
        cases hp : parseOid tid with
        | none => exact Or.inl (by simp [submit_task, hf, hp])
        | some oid =>
            cases hg : s.verificationtask.filter (fun t => t.oid == oid) with
            | nil => exact Or.inl (by simp [submit_task, hf, hp, hg])
            | cons task ts =>
                by_cases hc : (c == "active" || c == "inactive" || c == "unknown") = true
                · refine Or.inr ⟨task, ts, ?_, ?_⟩
                  · have hmem : task ∈ s.verificationtask.filter (fun t => t.oid == oid) := by
                      rw [hg]
                      exact List.mem_cons_self task ts
                    have htoid : task.oid = oid := eq_of_beq (List.mem_filter.mp hmem).2
                    rw [htoid]
                    exact hg
                  · rw [submit_task_ok s e tid c rid now user us oid task ts hf hp hg hc]
                · have hcf : (c == "active" || c == "inactive" || c == "unknown") = false := by
                    simpa using hc
                  exact Or.inl (by simp [submit_task, hf, hp, hg, hcf])

/-- Witness for the status-transition specification: a successful
concrete assignment stamped exactly the pending document it returned. -/
theorem task_status_transitions_spec_witness :
    ∃ task ∈ exampleStore2.verificationtask, task.status = "pending" ∧
      task.oid = "cccccccccccccccccccccccc" ∧
      (assign_task exampleStore2 "demo@example.com" "eeeeeeeeeeeeeeeeeeeeeeee" 50).1.verificationtask =
        updateFirst (fun t => t.oid == task.oid)
          (setAssigned (resolvedUserOid exampleStore2 "demo@example.com" "eeeeeeeeeeeeeeeeeeeeeeee") 50)
          exampleStore2.verificationtask :=
  task_status_transitions_spec.2.1 exampleStore2 "demo@example.com" "eeeeeeeeeeeeeeeeeeeeeeee" 50
    { task_id := "cccccccccccccccccccccccc"
      title := "Cozy Suburban Home"
      price := 350000
      location := "Austin, TX"
      image_url := "img2"
      property_type := "House"
      reward_cents := 30
      instructions := "check it" }
    (by decide) (by decide)

/-- C7 counterexample: submitting a disabled task succeeds and sets its
status to completed — the transition disabled → completed exists, so
task statuses do not only ever move from pending to completed. -/
theorem task_status_transitions_counterexample :
    taskStatus exampleDisabledStore "dddddddddddddddddddddddd" = some "disabled" ∧
    taskStatus (submit_task exampleDisabledStore "demo@example.com"
      "dddddddddddddddddddddddd" "active" "r1" 0).1 "dddddddddddddddddddddddd" =
      some "completed" ∧
    (submit_task exampleDisabledStore "demo@example.com"
      "dddddddddddddddddddddddd" "active" "r1" 0).2 = Except.ok 25 :=
  ⟨by decide, by decide, by decide⟩
